import Mathlib

/-!
# Verification of the luaR front end (tokenizer and parser)

This file is a shallow embedding, in Lean 4, of the Go package `luar`:
a tokenizer and recursive-descent parser for a Lua-syntax subset, plus
the statements and expression grammar they produce.  Every definition is
translated from the Go source (tokens.go, lexer.go, ast.go, parser.go);
the parser is fuel-indexed because the Go parser contains loops whose
termination is part of what is being verified.

Modelling conventions, each marked at its use site:
* Go strings are read rune by rune; the remaining input is a `List Char`.
* `unicode.IsLetter` / `unicode.IsDigit` are modelled by their ASCII
  restrictions (`Char.isAlpha` / `Char.isDigit`); every input considered
  in this development is ASCII, where the two agree.
* `float64` literal values (`strconv.ParseFloat`) are modelled exactly as
  rationals; no claim below depends on floating-point rounding.
* A Go `panic` (the unchecked type assertion in the assignment parser) is
  an explicit `crashed` result; running out of fuel is `fuelOut`.
-/

set_option maxHeartbeats 16000000

namespace LuaR

/-- Token kinds, one constructor per Go `TokenType` constant (tokens.go). -/
inductive TokenType where
  | ILLEGAL | EOF
  | IDENT | INT | FLOAT | STRING
  | COMMA | DOT | COLON | SEMICOLON
  | LPAREN | RPAREN | LBRACKET | RBRACKET | LBRACE | RBRACE
  | ASSIGN | EQ | NE | LT | LE | GT | GE
  | PLUS | MINUS | STAR | SLASH | MOD | POW | HASH
  | CONCAT | ELLIPSIS | LSHIFT | RSHIFT | LABEL
  | AND | OR | NOT
  | IF | THEN | ELSE | DO | ELSEIF | END | FOR | IN
  | WHILE | REPEAT | UNTIL | FUNCTION | RETURN | LOCAL | BREAK | GOTO
  | TRUE | FALSE | NIL
  | COMMENT
deriving DecidableEq, Repr, BEq

/-- The Go string value of each `TokenType` constant (used in diagnostics). -/
def TokenType.str : TokenType → String
  | .ILLEGAL => "ILLEGAL"
  | .EOF => "EOF"
  | .IDENT => "IDENT"
  | .INT => "INT"
  | .FLOAT => "FLOAT"
  | .STRING => "STRING"
  | .COMMA => ","
  | .DOT => "."
  | .COLON => ":"
  | .SEMICOLON => ";"
  | .LPAREN => "("
  | .RPAREN => ")"
  | .LBRACKET => "["
  | .RBRACKET => "]"
  | .LBRACE => "\x7b"
  | .RBRACE => "\x7d"
  | .ASSIGN => "="
  | .EQ => "=="
  | .NE => "~="
  | .LT => "<"
  | .LE => "<="
  | .GT => ">"
  | .GE => ">="
  | .PLUS => "+"
  | .MINUS => "-"
  | .STAR => "*"
  | .SLASH => "/"
  | .MOD => "%"
  | .POW => "^"
  | .HASH => "#"
  | .CONCAT => ".."
  | .ELLIPSIS => "..."
  | .LSHIFT => "<<"
  | .RSHIFT => ">>"
  | .LABEL => "::"
  | .AND => "and"
  | .OR => "or"
  | .NOT => "not"
  | .IF => "if"
  | .THEN => "then"
  | .ELSE => "else"
  | .DO => "do"
  | .ELSEIF => "elseif"
  | .END => "end"
  | .FOR => "for"
  | .IN => "in"
  | .WHILE => "while"
  | .REPEAT => "repeat"
  | .UNTIL => "until"
  | .FUNCTION => "function"
  | .RETURN => "return"
  | .LOCAL => "local"
  | .BREAK => "break"
  | .GOTO => "goto"
  | .TRUE => "true"
  | .FALSE => "false"
  | .NIL => "nil"
  | .COMMENT => "COMMENT"

/-- The static keyword table (`keywords` in tokens.go). -/
def keywordLookup : String → Option TokenType
  | "and" => some .AND
  | "or" => some .OR
  | "not" => some .NOT
  | "if" => some .IF
  | "then" => some .THEN
  | "else" => some .ELSE
  | "elseif" => some .ELSEIF
  | "end" => some .END
  | "for" => some .FOR
  | "in" => some .IN
  | "while" => some .WHILE
  | "repeat" => some .REPEAT
  | "until" => some .UNTIL
  | "function" => some .FUNCTION
  | "return" => some .RETURN
  | "local" => some .LOCAL
  | "break" => some .BREAK
  | "goto" => some .GOTO
  | "true" => some .TRUE
  | "false" => some .FALSE
  | "nil" => some .NIL
  | "do" => some .DO
  | _ => none

/-- A lexical token (`Token` in tokens.go). -/
structure Token where
  type : TokenType
  literal : String
  line : Nat
  col : Nat
deriving DecidableEq, Repr, BEq

/-! ## Lexer (lexer.go)

The Go lexer keeps a byte position into the input plus a line and column
counter; the remaining input is modelled as a `List Char` (rune list), and
each loop of the Go code becomes a structurally recursive function on that
list so that all definitions compute by `rfl`/`decide`.  The `start` field
of the Go `Lexer` is never written after initialization, so the
`l.column - l.start` in `errorf` is just the current column. -/

/-- The rune value 0, which `currentChar`/`readChar` return at end of input. -/
def nulChar : Char := Char.ofNat 0

/-- Go `unicode.IsDigit`, restricted to ASCII (all inputs considered are ASCII). -/
def isDigitGo (c : Char) : Bool := c.isDigit

/-- Go `unicode.IsLetter`, restricted to ASCII (all inputs considered are ASCII). -/
def isLetterGo (c : Char) : Bool := c.isAlpha

/-- Lexer state: remaining input, current line, current column. -/
structure LexState where
  input : List Char
  line : Nat
  col : Nat
deriving DecidableEq, Repr

/-- `skipWhitespace`: consume spaces, tabs, carriage returns and newlines,
updating line/column exactly as `readChar` does. -/
def skipWsL : List Char → Nat → Nat → List Char × Nat × Nat
  | [], l, c => ([], l, c)
  | ch :: rest, l, c =>
    if ch = ' ' ∨ ch = '\t' ∨ ch = '\r' then skipWsL rest l (c + 1)
    else if ch = '\n' then skipWsL rest (l + 1) 1
    else (ch :: rest, l, c)

/-- Body of `skipComment`: consume to (but not including) the next newline;
a rune value 0 (real NUL or end of input) also stops it. -/
def skipCommentBodyL : List Char → Nat → Nat → List Char × Nat × Nat
  | [], l, c => ([], l, c)
  | ch :: rest, l, c =>
    if ch = '\n' then (ch :: rest, l, c)
    else if ch = nulChar then (ch :: rest, l, c)
    else skipCommentBodyL rest l (c + 1)

/-- `skipComment`: if the input starts with two dashes, consume them and the
rest of the line; otherwise do nothing. -/
def skipCommentL (xs : List Char) (l c : Nat) : List Char × Nat × Nat :=
  match xs with
  | ch1 :: ch2 :: rest =>
    if ch1 = '-' ∧ ch2 = '-' then skipCommentBodyL rest l (c + 2)
    else (xs, l, c)
  | _ => (xs, l, c)

/-- The message built by `l.errorf("unterminated string")`. -/
def errUnterminated (l c : Nat) : String :=
  "line " ++ toString l ++ ", column " ++ toString c ++ ": unterminated string"

/-- Loop of `readString`, entered after the opening quote was consumed.
Returns token type, literal (the processed string value, or the diagnostic
message for ILLEGAL), and the state after the closing quote. -/
def readStringT (quote : Char) :
    List Char → Nat → Nat → List Char → TokenType × String × List Char × Nat × Nat
  | [], l, c, _ => (.ILLEGAL, errUnterminated l c, [], l, c)
  | ch :: rest, l, c, acc =>
    -- readChar consumed ch
    let l1 := if ch = '\n' then l + 1 else l
    let c1 := if ch = '\n' then 1 else c + 1
    if ch = nulChar then (.ILLEGAL, errUnterminated l1 c1, rest, l1, c1)
    else if ch = quote then (.STRING, String.mk acc, rest, l1, c1)
    else if ch = '\\' then
      match rest with
      | [] =>
        -- escape readChar returns 0 without consuming; the default case
        -- writes rune 0, then the next iteration hits end of input
        (.ILLEGAL, errUnterminated l1 c1, [], l1, c1)
      | e :: rest2 =>
        let l2 := if e = '\n' then l1 + 1 else l1
        let c2 := if e = '\n' then 1 else c1 + 1
        let mapped :=
          if e = 'n' then '\n'
          else if e = 't' then '\t'
          else if e = 'r' then '\r'
          else if e = '\\' then '\\'
          else if e = Char.ofNat 34 then Char.ofNat 34
          else if e = Char.ofNat 39 then Char.ofNat 39
          else if e = '0' then nulChar
          else e
        readStringT quote rest2 l2 c2 (acc ++ [mapped])
    else readStringT quote rest l1 c1 (acc ++ [ch])

/-- Hex-digit run for the `0x` branch of `readNumber`:
returns (consumed digits, remaining input). -/
def readHexL : List Char → List Char × List Char
  | [] => ([], [])
  | ch :: rest =>
    if isDigitGo ch ∨ ('a' ≤ ch ∧ ch ≤ 'f') ∨ ('A' ≤ ch ∧ ch ≤ 'F') then
      let (ds, r) := readHexL rest
      (ch :: ds, r)
    else ([], ch :: rest)

/-- Main loop of `readNumber`: digits, at most one dot, at most one exponent
marker with optional sign.  The Go loop consumes the sign inside the
exponent-marker iteration; here the flag `postE` marks that the previous
character was the exponent marker so the sign is consumed at the start of the
next step — the consumed/remaining split is identical.
Returns (consumed, remaining, hasDot, hasExp). -/
def numLoopL : List Char → Bool → Bool → Bool → List Char × List Char × Bool × Bool
  | [], d, e, _ => ([], [], d, e)
  | ch :: rest, d, e, postE =>
    if postE ∧ (ch = '+' ∨ ch = '-') then
      let (cs, r, d', e') := numLoopL rest d e false
      (ch :: cs, r, d', e')
    else if ch = '.' then
      if d ∨ e then ([], ch :: rest, d, e)
      else
        let (cs, r, d', e') := numLoopL rest true e false
        (ch :: cs, r, d', e')
    else if ch = 'e' ∨ ch = 'E' then
      if e then ([], ch :: rest, d, e)
      else
        let (cs, r, d', e') := numLoopL rest d true true
        (ch :: cs, r, d', e')
    else if isDigitGo ch then
      let (cs, r, d', e') := numLoopL rest d e false
      (ch :: cs, r, d', e')
    else ([], ch :: rest, d, e)

/-- `readNumber`: returns token type, literal text and remaining input.
Numbers contain no newlines, so line tracking is unaffected. -/
def readNumberL (xs : List Char) : TokenType × String × List Char :=
  match xs with
  | [] => (.INT, "", [])
  | ch :: rest =>
    if ch = '0' then
      match rest with
      | x :: rest2 =>
        if x = 'x' ∨ x = 'X' then
          let (ds, r) := readHexL rest2
          (.INT, String.mk ('0' :: x :: ds), r)
        else
          let (cs, r, d, e) := numLoopL (x :: rest2) false false false
          (if d ∨ e then .FLOAT else .INT, String.mk ('0' :: cs), r)
      | [] => (.INT, "0", [])
    else
      let (cs, r, d, e) := numLoopL (ch :: rest) false false false
      (if d ∨ e then .FLOAT else .INT, String.mk cs, r)

/-- `readIdentifier`: letter/digit/underscore run.
Returns (consumed, remaining). -/
def readIdentL : List Char → List Char × List Char
  | [] => ([], [])
  | ch :: rest =>
    if isLetterGo ch ∨ isDigitGo ch ∨ ch = '_' then
      let (cs, r) := readIdentL rest
      (ch :: cs, r)
    else ([], ch :: rest)

/-- `NextToken`.  Fuel only decreases at the one self-recursive call, in the
dash case (a comment noticed after a dash was consumed); each recursion has
consumed at least one character, so `input.length + 1` fuel always suffices
(see `NextTokenGo`). -/
def NextTokenF : Nat → LexState → Token × LexState
  | 0, st => (⟨.EOF, "", st.line, st.col⟩, st)
  | fuel + 1, st =>
    let (xs1, l1, c1) := skipWsL st.input st.line st.col
    let (xs2, l2, c2) := skipCommentL xs1 l1 c1
    let (xs3, l3, c3) := skipWsL xs2 l2 c2
    match xs3 with
    | [] => (⟨.EOF, "", l3, c3⟩, ⟨[], l3, c3⟩)
    | ch :: rest =>
      if ch = nulChar then (⟨.EOF, "", l3, c3⟩, ⟨ch :: rest, l3, c3⟩)
      else if ch = '=' then
        match rest with
        | '=' :: rest2 => (⟨.EQ, "==", l3, c3⟩, ⟨rest2, l3, c3 + 2⟩)
        | _ => (⟨.ASSIGN, "=", l3, c3⟩, ⟨rest, l3, c3 + 1⟩)
      else if ch = '+' then (⟨.PLUS, "+", l3, c3⟩, ⟨rest, l3, c3 + 1⟩)
      else if ch = '-' then
        -- readChar consumed the dash; if another dash follows, skipComment
        -- is attempted from the SECOND dash (its two-dash guard usually
        -- fails there) and then NextToken recurses
        match rest with
        | d :: rest2 =>
          if d = '-' then
            let (xsB, lB, cB) := skipCommentL (d :: rest2) l3 (c3 + 1)
            NextTokenF fuel ⟨xsB, lB, cB⟩
          else (⟨.MINUS, "-", l3, c3⟩, ⟨d :: rest2, l3, c3 + 1⟩)
        | [] => (⟨.MINUS, "-", l3, c3⟩, ⟨[], l3, c3 + 1⟩)
      else if ch = '*' then (⟨.STAR, "*", l3, c3⟩, ⟨rest, l3, c3 + 1⟩)
      else if ch = '/' then (⟨.SLASH, "/", l3, c3⟩, ⟨rest, l3, c3 + 1⟩)
      else if ch = '%' then (⟨.MOD, "%", l3, c3⟩, ⟨rest, l3, c3 + 1⟩)
      else if ch = '^' then (⟨.POW, "^", l3, c3⟩, ⟨rest, l3, c3 + 1⟩)
      else if ch = '#' then (⟨.HASH, "#", l3, c3⟩, ⟨rest, l3, c3 + 1⟩)
      else if ch = '(' then (⟨.LPAREN, "(", l3, c3⟩, ⟨rest, l3, c3 + 1⟩)
      else if ch = ')' then (⟨.RPAREN, ")", l3, c3⟩, ⟨rest, l3, c3 + 1⟩)
      else if ch = Char.ofNat 123 then (⟨.LBRACE, "\x7b", l3, c3⟩, ⟨rest, l3, c3 + 1⟩)
      else if ch = Char.ofNat 125 then (⟨.RBRACE, "\x7d", l3, c3⟩, ⟨rest, l3, c3 + 1⟩)
      else if ch = '[' then (⟨.LBRACKET, "[", l3, c3⟩, ⟨rest, l3, c3 + 1⟩)
      else if ch = ']' then (⟨.RBRACKET, "]", l3, c3⟩, ⟨rest, l3, c3 + 1⟩)
      else if ch = ',' then (⟨.COMMA, ",", l3, c3⟩, ⟨rest, l3, c3 + 1⟩)
      else if ch = '.' then
        match rest with
        | '.' :: '.' :: rest2 => (⟨.ELLIPSIS, "...", l3, c3⟩, ⟨rest2, l3, c3 + 3⟩)
        | '.' :: rest2 => (⟨.CONCAT, "..", l3, c3⟩, ⟨rest2, l3, c3 + 2⟩)
        | _ => (⟨.DOT, ".", l3, c3⟩, ⟨rest, l3, c3 + 1⟩)
      else if ch = ':' then
        match rest with
        | ':' :: rest2 => (⟨.LABEL, "::", l3, c3⟩, ⟨rest2, l3, c3 + 2⟩)
        | _ => (⟨.COLON, ":", l3, c3⟩, ⟨rest, l3, c3 + 1⟩)
      else if ch = ';' then (⟨.SEMICOLON, ";", l3, c3⟩, ⟨rest, l3, c3 + 1⟩)
      else if ch = Char.ofNat 34 ∨ ch = Char.ofNat 39 then
        -- readString: its readChar first consumes the opening quote
        let (ty, val, xsS, lS, cS) := readStringT ch rest l3 (c3 + 1) []
        (⟨ty, val, lS, c3⟩, ⟨xsS, lS, cS⟩)
      else if ch = '~' then
        match rest with
        | '=' :: rest2 => (⟨.NE, "~=", l3, c3⟩, ⟨rest2, l3, c3 + 2⟩)
        | _ => (⟨.ILLEGAL, "~", l3, c3⟩, ⟨rest, l3, c3 + 1⟩)
      else if ch = '<' then
        match rest with
        | '=' :: rest2 => (⟨.LE, "<=", l3, c3⟩, ⟨rest2, l3, c3 + 2⟩)
        | '<' :: rest2 => (⟨.LSHIFT, "<<", l3, c3⟩, ⟨rest2, l3, c3 + 2⟩)
        | _ => (⟨.LT, "<", l3, c3⟩, ⟨rest, l3, c3 + 1⟩)
      else if ch = '>' then
        match rest with
        | '=' :: rest2 => (⟨.GE, ">=", l3, c3⟩, ⟨rest2, l3, c3 + 2⟩)
        | '>' :: rest2 => (⟨.RSHIFT, ">>", l3, c3⟩, ⟨rest2, l3, c3 + 2⟩)
        | _ => (⟨.GT, ">", l3, c3⟩, ⟨rest, l3, c3 + 1⟩)
      else if isDigitGo ch then
        let (ty, txt, r) := readNumberL (ch :: rest)
        (⟨ty, txt, l3, c3⟩, ⟨r, l3, c3 + txt.length⟩)
      else if isLetterGo ch ∨ ch = '_' then
        let (cs, r) := readIdentL (ch :: rest)
        let name := String.mk cs
        let ty := match keywordLookup name with
          | some k => k
          | none => .IDENT
        (⟨ty, name, l3, c3⟩, ⟨r, l3, c3 + cs.length⟩)
      else
        (⟨.ILLEGAL, String.mk [ch], l3, c3⟩, ⟨rest, l3, c3 + 1⟩)

/-- `NextToken` with fuel always sufficient for its comment recursion. -/
def NextTokenGo (st : LexState) : Token × LexState :=
  NextTokenF (st.input.length + 1) st

/-- Loop of `Tokens()`: collect tokens up to and including the EOF token.
Every non-EOF token consumes at least one character, so `length + 1`
iterations always suffice (see `Tokens`). -/
def TokensF : Nat → LexState → List Token
  | 0, _ => []
  | n + 1, st =>
    let (t, st') := NextTokenGo st
    if t.type = .EOF then [t] else t :: TokensF n st'

/-- `NewLexer(input).Tokens()`: the materialized token sequence. -/
def Tokens (input : String) : List Token :=
  TokensF (input.length + 1) ⟨input.data, 1, 1⟩

/-! ## Literal conversion (strconv, as used by parser.go)

`parsePrimary` converts token text with `strconv.ParseInt(lit, 0, 64)` and
`strconv.ParseFloat(lit, 64)`, ignoring the returned error, so invalid text
becomes 0 and an out-of-range integer is clamped to the int64 bounds.  The
float64 value is modelled as an exact rational (none of the claims below
depends on floating-point rounding). -/

/-- Value of one digit character in the given base (as `strconv` accepts). -/
def digitVal (base : Nat) (c : Char) : Option Nat :=
  let v :=
    if '0' ≤ c ∧ c ≤ '9' then some (c.toNat - 48)
    else if 'a' ≤ c ∧ c ≤ 'z' then some (c.toNat - 97 + 10)
    else if 'A' ≤ c ∧ c ≤ 'Z' then some (c.toNat - 65 + 10)
    else none
  match v with
  | some d => if d < base then some d else none
  | none => none

/-- Accumulate a digit string in the given base; any bad digit is a syntax
error (`none`). -/
def digitsValGo (base : Nat) : List Char → Nat → Option Nat
  | [], acc => some acc
  | c :: rest, acc =>
    match digitVal base c with
    | some d => digitsValGo base rest (acc * base + d)
    | none => none

/-- `strconv.ParseInt(s, 0, 64)` with the error discarded (parser.go ignores
it): base prefix detection, 0 on syntax error, int64 clamping on range
error. -/
def parseIntGo (s : String) : Int :=
  let (neg, cs1) :=
    match s.data with
    | '+' :: r => (false, r)
    | '-' :: r => (true, r)
    | r => (false, r)
  let (base, digs) :=
    match cs1 with
    | '0' :: x :: r =>
      if x = 'x' ∨ x = 'X' then (16, r)
      else if x = 'b' ∨ x = 'B' then (2, r)
      else if x = 'o' ∨ x = 'O' then (8, r)
      else (8, x :: r)
    | r => (10, r)
  match digs with
  | [] => 0
  | _ =>
    match digitsValGo base digs 0 with
    | none => 0
    | some v =>
      let signed : Int := if neg then -(v : Int) else (v : Int)
      if signed > 2 ^ 63 - 1 then 2 ^ 63 - 1
      else if signed < -(2 ^ 63) then -(2 ^ 63)
      else signed

/-- Split a leading run of decimal digits. -/
def spanDigits : List Char → List Char × List Char
  | [] => ([], [])
  | c :: r =>
    if c.isDigit then
      let (a, b) := spanDigits r
      (c :: a, b)
    else ([], c :: r)

/-- Decimal value of a digit list (digits only at call sites). -/
def decVal (ds : List Char) : Nat := digitsValGo 10 ds 0 |>.getD 0

/-- `strconv.ParseFloat(s, 64)` with the error discarded, modelled as the
exact decimal rational (no float64 rounding): 0 on any syntax error. -/
def parseFloatGo (s : String) : Rat :=
  let (neg, cs1) :=
    match s.data with
    | '+' :: r => (false, r)
    | '-' :: r => (true, r)
    | r => (false, r)
  let (ip, cs2) := spanDigits cs1
  let (hasFrac, fp, cs3) :=
    match cs2 with
    | '.' :: r =>
      let (f, r2) := spanDigits r
      (true, f, r2)
    | r => (false, [], r)
  if ip = [] ∧ fp = [] then 0
  else
    let mant : Rat := ((decVal ip * 10 ^ fp.length + decVal fp : Nat) : Rat) / (10 ^ fp.length : Nat)
    let mant : Rat := if neg then -mant else mant
    let _ := hasFrac
    match cs3 with
    | [] => mant
    | e :: r =>
      if e = 'e' ∨ e = 'E' then
        let (eneg, r1) :=
          match r with
          | '+' :: r2 => (false, r2)
          | '-' :: r2 => (true, r2)
          | r2 => (false, r2)
        let (ed, r2) := spanDigits r1
        if ed = [] ∨ r2 ≠ [] then 0
        else if eneg then mant / (10 ^ decVal ed : Nat) else mant * (10 ^ decVal ed : Nat)
      else 0

/-! ## Syntax tree (ast.go)

One constructor per Go node type.  `*Identifier` is a struct used both as an
expression and in name lists; `NumberLiteral` keeps the Go triple
(Value, IntValue, IsInt).  The numeric-for `Post` field is a Go
`*AssignmentStatement` whose single value may be the nil interface (no step
written); the nested assignments of `ForStatement` are flattened into the
`forStmt` constructor with the step as an `Option`. -/

structure Identifier where
  name : String
  tokenLine : Nat
deriving DecidableEq, Repr

mutual

inductive Expression where
  | identExpr (id : Identifier)
  | numberLit (value : Rat) (intValue : Int) (isInt : Bool) (tokenLine : Nat)
  | stringLit (value : String) (tokenLine : Nat)
  | booleanLit (value : Bool) (tokenLine : Nat)
  | nilLit (tokenLine : Nat)
  | tableLit (fields : List TableField) (tokenLine : Nat)
  | functionLit (params : List Identifier) (body : List Statement) (tokenLine : Nat)
  | binaryExpr (op : TokenType) (left right : Expression) (tokenLine : Nat)
  | unaryExpr (op : TokenType) (right : Expression) (tokenLine : Nat)
  | indexExpr (obj idx : Expression) (tokenLine : Nat)
  | memberExpr (obj : Expression) (member : String) (tokenLine : Nat)
  | callExpr (function : Expression) (method : String) (args : List Expression) (tokenLine : Nat)
  | tableIndexExpr (key : Expression) (tokenLine : Nat)
  | errorNode (message : String) (tokenLine : Nat)

inductive TableField where
  | mk (key : Option Expression) (value : Expression) (tokenLine : Nat)

inductive ElseIfClause where
  | mk (condition : Expression) (thenB : List Statement) (tokenLine : Nat)

inductive FunctionName where
  | mk (method : String) (table : Option Expression) (name : Option Identifier)

inductive Statement where
  | assign (names : List Identifier) (values : List Expression) (tokenLine : Nat)
  | localAssign (names : List Identifier) (values : List Expression) (tokenLine : Nat)
  | callStmt (function : Expression)
  | ifStmt (condition : Expression) (thenB : List Statement)
      (elseIfs : List ElseIfClause) (elseB : List Statement) (tokenLine : Nat)
  | whileStmt (condition : Expression) (body : List Statement) (tokenLine : Nat)
  | repeatStmt (body : List Statement) (condition : Expression) (tokenLine : Nat)
  | forStmt (initNames : List Identifier) (initValues : List Expression) (initLine : Nat)
      (condition : Expression)
      (postNames : List Identifier) (postStep : Option Expression) (postLine : Nat)
      (body : List Statement) (tokenLine : Nat)
  | forInStmt (names : List Identifier) (values : List Expression)
      (body : List Statement) (tokenLine : Nat)
  | funcStmt (name : FunctionName) (params : List Identifier)
      (body : List Statement) (tokenLine : Nat)
  | localFuncStmt (name : Identifier) (params : List Identifier)
      (body : List Statement) (tokenLine : Nat)
  | returnStmt (results : List Expression) (tokenLine : Nat)
  | breakStmt (tokenLine : Nat)
  | labelStmt (name : String) (tokenLine : Nat)
  | gotoStmt (name : String) (tokenLine : Nat)
  | semicolonStmt (tokenLine : Nat)

end

/-- The root node: an ordered sequence of top-level statements. -/
structure Program where
  statements : List Statement

/-! ## Parser (parser.go)

The parser state is the materialized token list, a cursor, and the
accumulated diagnostics.  A computation either returns a value and the next
state, runs out of fuel (`fuelOut` — the Go original would still be
looping), or hits the Go panic in the assignment narrowing (`crashed`).
Fuel is spent one unit per (mutually) recursive call, so every Go loop and
every recursive descent consumes fuel. -/

structure PState where
  tokens : List Token
  pos : Nat
  errors : List String
deriving Repr

inductive PRes (α : Type) where
  | ok (a : α) (st : PState)
  | fuelOut
  | crashed

def PM (α : Type) : Type := PState → PRes α

/-- Return a value, leaving the parser state unchanged. -/
def PM.pure (a : α) : PM α := fun st => .ok a st

/-- Sequencing: thread the parser state, propagating fuel exhaustion and the
Go panic. -/
def PM.bind (m : PM α) (f : α → PM β) : PM β := fun st =>
  match m st with
  | .ok a st' => f a st'
  | .fuelOut => .fuelOut
  | .crashed => .crashed

instance : Monad PM where
  pure := PM.pure
  bind := PM.bind

/-- Never used on lexer-produced token lists (they always end in EOF); the
Go code would index `tokens[len-1]` and cannot reach an empty list through
`NewParser`. -/
def dummyToken : Token := ⟨.EOF, "", 0, 0⟩

/-- `currentToken`: saturates at the final token once the cursor passes the
end. -/
def PState.currentToken (p : PState) : Token :=
  if p.pos ≥ p.tokens.length then p.tokens.getLastD dummyToken
  else p.tokens.getD p.pos dummyToken

/-- `peekToken`. -/
def PState.peekToken (p : PState) (offset : Nat) : Token :=
  if p.pos + offset ≥ p.tokens.length then p.tokens.getLastD dummyToken
  else p.tokens.getD (p.pos + offset) dummyToken

/-- State change of `advance`: past the end the cursor stays put. -/
def PState.advanceState (p : PState) : PState :=
  if p.pos ≥ p.tokens.length then p else { p with pos := p.pos + 1 }

def currentTokenM : PM Token := fun p => .ok p.currentToken p

def peekTokenM (offset : Nat) : PM Token := fun p => .ok (p.peekToken offset) p

/-- `advance`: returns the token under the cursor and moves the cursor. -/
def advanceM : PM Token := fun p => .ok p.currentToken p.advanceState

/-- Append one diagnostic (`p.errors = append(p.errors, ...)`). -/
def pushErrM (msg : String) : PM Unit :=
  fun p => .ok () { p with errors := p.errors ++ [msg] }

/-- `check`. -/
def checkM (t : TokenType) : PM Bool := fun p => .ok (p.currentToken.type == t) p

/-- `expect`: on mismatch records the diagnostic and yields a placeholder
token of the wanted kind without advancing. -/
def expectM (t : TokenType) : PM Token := fun p =>
  if p.currentToken.type == t then .ok p.currentToken p.advanceState
  else
    .ok ⟨t, "", 0, 0⟩
      { p with
        errors := p.errors ++
          ["expected " ++ t.str ++ " but got " ++ p.currentToken.type.str ++
            " at line " ++ toString p.currentToken.line] }

/-- `parseFunctionName` (no recursion into the grammar). -/
def parseFunctionNameGo : PM FunctionName := do
  let cI ← checkM .IDENT
  let name0 ← if cI then do
      let t ← expectM .IDENT
      let cur ← currentTokenM
      pure (some (⟨t.literal, cur.line⟩ : Identifier))
    else pure none
  let cD ← checkM .DOT
  let name1 ← if cD then do
      let _ ← advanceM
      let base := name0.getD (⟨"", 0⟩ : Identifier)
      let t ← expectM .IDENT
      pure (some (⟨base.name ++ "." ++ t.literal, base.tokenLine⟩ : Identifier))
    else pure name0
  let cC ← checkM .COLON
  let meth ← if cC then do
      let _ ← advanceM
      let t ← expectM .IDENT
      pure t.literal
    else pure ""
  pure (.mk meth none name1)

/-- `parseGotoStatement`. -/
def parseGotoStatementGo : PM Statement := do
  let gotoTok ← expectM .GOTO
  let name ← expectM .IDENT
  pure (.gotoStmt name.literal gotoTok.line)

/-- `parseLabelStatement`. -/
def parseLabelStatementGo : PM Statement := do
  let labelTok ← expectM .LABEL
  let name ← expectM .IDENT
  let _ ← expectM .LABEL
  pure (.labelStmt name.literal labelTok.line)

/-- Parameter-list loop shared verbatim by `parseFunctionStatement`,
`parseLocalFunction` and `parseFunctionLiteral` (the Go code repeats it
textually in all three). -/
def paramsLoopF : Nat → List Identifier → PM (List Identifier)
  | 0, _ => fun _ => .fuelOut
  | n + 1, acc => do
    let cI ← checkM .IDENT
    let acc2 ← if cI then do
        let t ← expectM .IDENT
        let cur ← currentTokenM
        pure (acc ++ [(⟨t.literal, cur.line⟩ : Identifier)])
      else do
        let cE ← checkM .ELLIPSIS
        if cE then do
          let cur ← currentTokenM
          let _ ← advanceM
          pure (acc ++ [(⟨"...", cur.line⟩ : Identifier)])
        else pure acc
    let cC ← checkM .COMMA
    if cC then do
      let _ ← advanceM
      paramsLoopF n acc2
    else pure acc2

/-- Name-list loop of `parseLocalAssignment`. -/
def localNamesLoopF : Nat → List Identifier → PM (List Identifier)
  | 0, _ => fun _ => .fuelOut
  | n + 1, acc => do
    let cI ← checkM .IDENT
    let acc2 ← if cI then do
        let t ← expectM .IDENT
        let cur ← currentTokenM
        pure (acc ++ [(⟨t.literal, cur.line⟩ : Identifier)])
      else pure acc
    let cC ← checkM .COMMA
    if cC then do
      let _ ← advanceM
      localNamesLoopF n acc2
    else pure acc2

/-- The concat fold of `parseConcat`: `result = Binary(ops[i], result, right)`
over the collected right-hand operands. -/
def concatFold : Expression → List Token → List Expression → Expression
  | left, op :: ops, r :: rs => concatFold (.binaryExpr op.type left r op.line) ops rs
  | left, _, _ => left

mutual

def parseStatementF : Nat → PM Statement
  | 0 => fun _ => .fuelOut
  | n + 1 => do
    let cur ← currentTokenM
    match cur.type with
    | .IF => parseIfStatementF n
    | .WHILE => parseWhileStatementF n
    | .REPEAT => parseRepeatStatementF n
    | .FOR => parseForStatementF n
    | .FUNCTION => parseFunctionStatementF n
    | .LOCAL => parseLocalStatementF n
    | .RETURN => parseReturnStatementF n
    | .BREAK => do
      let _ ← advanceM
      let cur2 ← currentTokenM
      pure (.breakStmt cur2.line)
    | .GOTO => parseGotoStatementGo
    | .LABEL => parseLabelStatementGo
    | .SEMICOLON => do
      let _ ← advanceM
      let cur2 ← currentTokenM
      pure (.semicolonStmt cur2.line)
    | _ => parseAssignmentOrExpressionF n

def parseIfStatementF : Nat → PM Statement
  | 0 => fun _ => .fuelOut
  | n + 1 => do
    let ifTok ← expectM .IF
    let condition ← parseExpressionF n
    let _ ← expectM .THEN
    let thenBlock ← parseBlockF n
    let elseIfs ← elseIfLoopF n []
    let hasElse ← checkM .ELSE
    let elseBlock ← if hasElse then do
        let _ ← advanceM
        parseBlockF n
      else pure []
    let _ ← expectM .END
    pure (.ifStmt condition thenBlock elseIfs elseBlock ifTok.line)

def elseIfLoopF : Nat → List ElseIfClause → PM (List ElseIfClause)
  | 0, _ => fun _ => .fuelOut
  | n + 1, acc => do
    let c ← checkM .ELSEIF
    if c then do
      let _ ← advanceM
      let cond ← parseExpressionF n
      let _ ← expectM .THEN
      let blk ← parseBlockF n
      let cur ← currentTokenM
      elseIfLoopF n (acc ++ [.mk cond blk cur.line])
    else pure acc

def parseWhileStatementF : Nat → PM Statement
  | 0 => fun _ => .fuelOut
  | n + 1 => do
    let whileTok ← expectM .WHILE
    let condition ← parseExpressionF n
    let _ ← expectM .DO
    let body ← parseBlockF n
    let _ ← expectM .END
    pure (.whileStmt condition body whileTok.line)

def parseRepeatStatementF : Nat → PM Statement
  | 0 => fun _ => .fuelOut
  | n + 1 => do
    let repeatTok ← expectM .REPEAT
    let body ← parseBlockF n
    let _ ← expectM .UNTIL
    let condition ← parseExpressionF n
    pure (.repeatStmt body condition repeatTok.line)

def parseForStatementF : Nat → PM Statement
  | 0 => fun _ => .fuelOut
  | n + 1 => do
    let forTok ← expectM .FOR
    let pk ← peekTokenM 1
    if pk.type == .ASSIGN then do
      let identTok ← expectM .IDENT
      let name : Identifier := ⟨identTok.literal, forTok.line⟩
      let _ ← expectM .ASSIGN
      let initVal ← parseExpressionF n
      let _ ← expectM .COMMA
      let endVal ← parseExpressionF n
      let hasStep ← checkM .COMMA
      let stepPair ← if hasStep then do
          let _ ← advanceM
          let s ← parseExpressionF n
          let cur ← currentTokenM
          pure (some s, cur.line)
        else pure ((none : Option Expression), 0)
      let _ ← expectM .DO
      let body ← parseBlockF n
      let _ ← expectM .END
      pure (.forStmt [name] [initVal] forTok.line endVal [name] stepPair.1 stepPair.2
        body forTok.line)
    else do
      let nameTok ← expectM .IDENT
      let hasComma ← checkM .COMMA
      let names ← if hasComma then do
          let _ ← advanceM
          let t2 ← expectM .IDENT
          let cur ← currentTokenM
          pure [(⟨nameTok.literal, nameTok.line⟩ : Identifier), ⟨t2.literal, cur.line⟩]
        else pure [(⟨nameTok.literal, nameTok.line⟩ : Identifier)]
      let _ ← expectM .IN
      let v1 ← parseExpressionF n
      let values ← exprListLoopF n [v1]
      let _ ← expectM .DO
      let body ← parseBlockF n
      let _ ← expectM .END
      pure (.forInStmt names values body forTok.line)

def parseFunctionStatementF : Nat → PM Statement
  | 0 => fun _ => .fuelOut
  | n + 1 => do
    let funcTok ← expectM .FUNCTION
    let name ← parseFunctionNameGo
    let _ ← expectM .LPAREN
    let cR ← checkM .RPAREN
    let params ← if cR then pure [] else paramsLoopF n []
    let _ ← expectM .RPAREN
    let body ← parseBlockF n
    let _ ← expectM .END
    pure (.funcStmt name params body funcTok.line)

def parseLocalStatementF : Nat → PM Statement
  | 0 => fun _ => .fuelOut
  | n + 1 => do
    let localTok ← expectM .LOCAL
    let cF ← checkM .FUNCTION
    if cF then parseLocalFunctionF n localTok
    else parseLocalAssignmentF n localTok

def parseLocalFunctionF : Nat → Token → PM Statement
  | 0, _ => fun _ => .fuelOut
  | n + 1, localTok => do
    let _ ← expectM .FUNCTION
    let t ← expectM .IDENT
    let name : Identifier := ⟨t.literal, localTok.line⟩
    let _ ← expectM .LPAREN
    let cR ← checkM .RPAREN
    let params ← if cR then pure [] else paramsLoopF n []
    let _ ← expectM .RPAREN
    let body ← parseBlockF n
    let _ ← expectM .END
    pure (.localFuncStmt name params body localTok.line)

def parseLocalAssignmentF : Nat → Token → PM Statement
  | 0, _ => fun _ => .fuelOut
  | n + 1, localTok => do
    let names ← localNamesLoopF n []
    let cA ← checkM .ASSIGN
    let values ← if cA then do
        let _ ← advanceM
        parseExpressionListF n
      else pure []
    pure (.localAssign names values localTok.line)

def parseReturnStatementF : Nat → PM Statement
  | 0 => fun _ => .fuelOut
  | n + 1 => do
    let returnTok ← expectM .RETURN
    let t ← currentTokenM
    let results ← if t.type == .END ∨ t.type == .ELSE ∨ t.type == .ELSEIF ∨
        t.type == .UNTIL ∨ t.type == .EOF then pure []
      else parseExpressionListF n
    let cS ← checkM .SEMICOLON
    let _ ← if cS then advanceM else pure dummyToken
    pure (.returnStmt results returnTok.line)

def parseAssignmentOrExpressionF : Nat → PM Statement
  | 0 => fun _ => .fuelOut
  | n + 1 => do
    let expr ← parseExpressionF n
    let cA ← checkM .ASSIGN
    let handled ← if cA then do
        let _ ← advanceM
        match expr with
        | .identExpr id => do
          let values ← parseExpressionListF n
          let cur ← currentTokenM
          pure (some (Statement.assign [id] values cur.line))
        | .memberExpr obj mem _ => do
          let values ← parseExpressionListF n
          -- member.Object.(*Identifier): unchecked narrowing, the Go code
          -- panics whenever the object is not a bare identifier
          match obj with
          | .identExpr oid => do
            let cur ← currentTokenM
            pure (some (Statement.assign [(⟨oid.name ++ "." ++ mem, 0⟩ : Identifier)]
              values cur.line))
          | _ => fun _ => PRes.crashed
        | .indexExpr obj _ _ => do
          let values ← parseExpressionListF n
          let nameStr := match obj with
            | .identExpr oid => oid.name
            | _ => ""
          let cur ← currentTokenM
          pure (some (Statement.assign [(⟨nameStr, 0⟩ : Identifier)] values cur.line))
        | _ => pure none
      else pure none
    match handled with
    | some s => pure s
    | none =>
      match expr with
      | .callExpr f m args line => pure (.callStmt (.callExpr f m args line))
      | _ => do
        let cur ← currentTokenM
        pure (.assign [] [expr] cur.line)

def parseBlockF : Nat → PM (List Statement)
  | 0 => fun _ => .fuelOut
  | n + 1 => blockLoopF n []

def blockLoopF : Nat → List Statement → PM (List Statement)
  | 0, _ => fun _ => .fuelOut
  | n + 1, acc => do
    let t ← currentTokenM
    if t.type == .END ∨ t.type == .ELSE ∨ t.type == .ELSEIF ∨
        t.type == .UNTIL ∨ t.type == .EOF then pure acc
    else do
      let s ← parseStatementF n
      blockLoopF n (acc ++ [s])

def parseExpressionListF : Nat → PM (List Expression)
  | 0 => fun _ => .fuelOut
  | n + 1 => do
    let e ← parseExpressionF n
    exprListLoopF n [e]

def exprListLoopF : Nat → List Expression → PM (List Expression)
  | 0, _ => fun _ => .fuelOut
  | n + 1, acc => do
    let c ← checkM .COMMA
    if c then do
      let _ ← advanceM
      let e ← parseExpressionF n
      exprListLoopF n (acc ++ [e])
    else pure acc

def parseExpressionF : Nat → PM Expression
  | 0 => fun _ => .fuelOut
  | n + 1 => parseOrF n

def parseOrF : Nat → PM Expression
  | 0 => fun _ => .fuelOut
  | n + 1 => do
    let left ← parseAndF n
    orLoopF n left

def orLoopF : Nat → Expression → PM Expression
  | 0, _ => fun _ => .fuelOut
  | n + 1, left => do
    let c ← checkM .OR
    if c then do
      let op ← advanceM
      let right ← parseAndF n
      orLoopF n (.binaryExpr op.type left right op.line)
    else pure left

def parseAndF : Nat → PM Expression
  | 0 => fun _ => .fuelOut
  | n + 1 => do
    let left ← parseComparisonF n
    andLoopF n left

def andLoopF : Nat → Expression → PM Expression
  | 0, _ => fun _ => .fuelOut
  | n + 1, left => do
    let c ← checkM .AND
    if c then do
      let op ← advanceM
      let right ← parseComparisonF n
      andLoopF n (.binaryExpr op.type left right op.line)
    else pure left

def parseComparisonF : Nat → PM Expression
  | 0 => fun _ => .fuelOut
  | n + 1 => do
    let left ← parseConcatF n
    comparisonLoopF n left

def comparisonLoopF : Nat → Expression → PM Expression
  | 0, _ => fun _ => .fuelOut
  | n + 1, left => do
    let t ← currentTokenM
    if t.type == .EQ ∨ t.type == .NE ∨ t.type == .LT ∨ t.type == .LE ∨
        t.type == .GT ∨ t.type == .GE then do
      let op ← advanceM
      let right ← parseConcatF n
      comparisonLoopF n (.binaryExpr op.type left right op.line)
    else pure left

def parseConcatF : Nat → PM Expression
  | 0 => fun _ => .fuelOut
  | n + 1 => do
    let left ← parseBitwiseOrF n
    let c ← checkM .CONCAT
    if c then do
      let op1 ← advanceM
      let r1 ← parseBitwiseOrF n
      let collected ← concatLoopF n [op1] [r1]
      pure (concatFold left collected.1 collected.2)
    else pure left

def concatLoopF : Nat → List Token → List Expression → PM (List Token × List Expression)
  | 0, _, _ => fun _ => .fuelOut
  | n + 1, ops, rights => do
    let c ← checkM .CONCAT
    if c then do
      let op ← advanceM
      let r ← parseBitwiseOrF n
      concatLoopF n (ops ++ [op]) (rights ++ [r])
    else pure (ops, rights)

def parseBitwiseOrF : Nat → PM Expression
  | 0 => fun _ => .fuelOut
  | n + 1 => do
    let left ← parseBitwiseXorF n
    bitwiseOrLoopF n left

def bitwiseOrLoopF : Nat → Expression → PM Expression
  | 0, _ => fun _ => .fuelOut
  | n + 1, left => do
    let t ← currentTokenM
    if t.type == .OR ∨ t.type == .LSHIFT ∨ t.type == .RSHIFT then do
      let op ← advanceM
      let right ← parseBitwiseXorF n
      bitwiseOrLoopF n (.binaryExpr op.type left right op.line)
    else pure left

def parseBitwiseXorF : Nat → PM Expression
  | 0 => fun _ => .fuelOut
  | n + 1 => do
    let left ← parseBitwiseAndF n
    bitwiseXorLoopF n left

def bitwiseXorLoopF : Nat → Expression → PM Expression
  | 0, _ => fun _ => .fuelOut
  | n + 1, left => do
    let c ← checkM .POW
    if c then do
      let op ← advanceM
      let right ← parseBitwiseAndF n
      bitwiseXorLoopF n (.binaryExpr op.type left right op.line)
    else pure left

def parseBitwiseAndF : Nat → PM Expression
  | 0 => fun _ => .fuelOut
  | n + 1 => do
    let left ← parseAddSubF n
    bitwiseAndLoopF n left

def bitwiseAndLoopF : Nat → Expression → PM Expression
  | 0, _ => fun _ => .fuelOut
  | n + 1, left => do
    let t ← currentTokenM
    if t.type == .HASH ∨ t.type == .AND then do
      let op ← advanceM
      let right ← parseAddSubF n
      bitwiseAndLoopF n (.binaryExpr op.type left right op.line)
    else pure left

def parseAddSubF : Nat → PM Expression
  | 0 => fun _ => .fuelOut
  | n + 1 => do
    let left ← parseMulDivModF n
    addSubLoopF n left

def addSubLoopF : Nat → Expression → PM Expression
  | 0, _ => fun _ => .fuelOut
  | n + 1, left => do
    let t ← currentTokenM
    if t.type == .PLUS ∨ t.type == .MINUS then do
      let op ← advanceM
      let right ← parseMulDivModF n
      addSubLoopF n (.binaryExpr op.type left right op.line)
    else pure left

def parseMulDivModF : Nat → PM Expression
  | 0 => fun _ => .fuelOut
  | n + 1 => do
    let left ← parseUnaryF n
    mulDivModLoopF n left

def mulDivModLoopF : Nat → Expression → PM Expression
  | 0, _ => fun _ => .fuelOut
  | n + 1, left => do
    let t ← currentTokenM
    if t.type == .STAR ∨ t.type == .SLASH ∨ t.type == .MOD then do
      let op ← advanceM
      let right ← parseUnaryF n
      mulDivModLoopF n (.binaryExpr op.type left right op.line)
    else pure left

def parseUnaryF : Nat → PM Expression
  | 0 => fun _ => .fuelOut
  | n + 1 => do
    let t ← currentTokenM
    if t.type == .NOT ∨ t.type == .MINUS ∨ t.type == .HASH then do
      let op ← advanceM
      let right ← parseUnaryF n
      pure (.unaryExpr op.type right op.line)
    else parsePowF n

def parsePowF : Nat → PM Expression
  | 0 => fun _ => .fuelOut
  | n + 1 => do
    let left ← parsePostfixExprF n
    powLoopF n left

def powLoopF : Nat → Expression → PM Expression
  | 0, _ => fun _ => .fuelOut
  | n + 1, left => do
    let c ← checkM .POW
    if c then do
      let op ← advanceM
      let right ← parseUnaryF n
      powLoopF n (.binaryExpr op.type left right op.line)
    else pure left

def parsePostfixExprF : Nat → PM Expression
  | 0 => fun _ => .fuelOut
  | n + 1 => do
    let e ← parsePrimaryF n
    postfixLoopF n e

def postfixLoopF : Nat → Expression → PM Expression
  | 0, _ => fun _ => .fuelOut
  | n + 1, expr => do
    let t ← currentTokenM
    if t.type == .DOT then do
      let _ ← advanceM
      let mem ← expectM .IDENT
      let cur ← currentTokenM
      postfixLoopF n (.memberExpr expr mem.literal cur.line)
    else if t.type == .LBRACKET then do
      let _ ← advanceM
      let idx ← parseExpressionF n
      let _ ← expectM .RBRACKET
      let cur ← currentTokenM
      postfixLoopF n (.indexExpr expr idx cur.line)
    else if t.type == .COLON then do
      let _ ← advanceM
      let methTok ← expectM .IDENT
      let _ ← expectM .LPAREN
      let cR ← checkM .RPAREN
      let args ← if cR then pure [] else parseExpressionListF n
      let _ ← expectM .RPAREN
      let cur ← currentTokenM
      postfixLoopF n (.callExpr expr methTok.literal args cur.line)
    else if t.type == .LPAREN ∨ t.type == .STRING ∨ t.type == .LBRACE then do
      let args ← if t.type == .LPAREN then do
          let _ ← advanceM
          let cR ← checkM .RPAREN
          let as0 ← if cR then pure [] else parseExpressionListF n
          let _ ← expectM .RPAREN
          pure as0
        else parseExpressionListF n
      let cur ← currentTokenM
      postfixLoopF n (.callExpr expr "" args cur.line)
    else pure expr

def parsePrimaryF : Nat → PM Expression
  | 0 => fun _ => .fuelOut
  | n + 1 => do
    let t ← currentTokenM
    match t.type with
    | .IDENT => do
      let identTok ← expectM .IDENT
      pure (.identExpr ⟨identTok.literal, identTok.line⟩)
    | .INT | .FLOAT => do
      let lit ← advanceM
      if lit.type == .INT then
        pure (.numberLit 0 (parseIntGo lit.literal) true lit.line)
      else
        pure (.numberLit (parseFloatGo lit.literal) 0 false lit.line)
    | .STRING => do
      let strTok ← expectM .STRING
      pure (.stringLit strTok.literal strTok.line)
    | .TRUE => do
      let _ ← advanceM
      let cur ← currentTokenM
      pure (.booleanLit true cur.line)
    | .FALSE => do
      let _ ← advanceM
      let cur ← currentTokenM
      pure (.booleanLit false cur.line)
    | .NIL => do
      let _ ← advanceM
      let cur ← currentTokenM
      pure (.nilLit cur.line)
    | .LBRACE => parseTableLiteralF n
    | .FUNCTION => parseFunctionLiteralF n
    | .LPAREN => do
      let _ ← advanceM
      let e ← parseExpressionF n
      let _ ← expectM .RPAREN
      pure e
    | _ => do
      pushErrM ("unexpected token: " ++ t.type.str ++ " at line " ++ toString t.line)
      let _ ← advanceM
      let cur ← currentTokenM
      pure (.errorNode "unexpected token" cur.line)

def parseTableLiteralF : Nat → PM Expression
  | 0 => fun _ => .fuelOut
  | n + 1 => do
    let braceTok ← expectM .LBRACE
    let cR ← checkM .RBRACE
    let fields ← if cR then pure [] else tableFieldsLoopF n []
    let _ ← expectM .RBRACE
    pure (.tableLit fields braceTok.line)

def tableFieldsLoopF : Nat → List TableField → PM (List TableField)
  | 0, _ => fun _ => .fuelOut
  | n + 1, acc => do
    let f ← parseTableFieldF n
    let acc2 := acc ++ [f]
    let cR ← checkM .RBRACE
    if cR then pure acc2
    else do
      let _ ← expectM .COMMA
      tableFieldsLoopF n acc2

def parseTableFieldF : Nat → PM TableField
  | 0 => fun _ => .fuelOut
  | n + 1 => do
    let key ← parseExpressionF n
    let cA ← checkM .ASSIGN
    if cA then do
      let _ ← advanceM
      let value ← parseExpressionF n
      let cur ← currentTokenM
      pure (TableField.mk (some key) value cur.line)
    else do
      let cur ← currentTokenM
      pure (TableField.mk none key cur.line)

def parseFunctionLiteralF : Nat → PM Expression
  | 0 => fun _ => .fuelOut
  | n + 1 => do
    let funcTok ← expectM .FUNCTION
    let _ ← expectM .LPAREN
    let cR ← checkM .RPAREN
    let params ← if cR then pure [] else paramsLoopF n []
    let _ ← expectM .RPAREN
    let body ← parseBlockF n
    let _ ← expectM .END
    pure (.functionLit params body funcTok.line)

end

/-- Loop of `Parse`: collect top-level statements until EOF. -/
def programLoopF : Nat → List Statement → PM (List Statement)
  | 0, _ => fun _ => .fuelOut
  | n + 1, acc => do
    let c ← checkM .EOF
    if c then pure acc
    else do
      let s ← parseStatementF n
      programLoopF n (acc ++ [s])

/-- `Parse()`: the Program plus `nil` or the newline-joined diagnostics. -/
def ParseF (fuel : Nat) : PM (Program × Option String) := fun st =>
  match programLoopF fuel [] st with
  | .ok stmts st' =>
    if st'.errors.length > 0 then
      .ok (⟨stmts⟩, some (String.intercalate "\n" st'.errors)) st'
    else .ok (⟨stmts⟩, none) st'
  | .fuelOut => .fuelOut
  | .crashed => .crashed

/-- `NewParser(input)`: tokenize everything up front, cursor at 0, no
diagnostics. -/
def NewParserState (input : String) : PState := ⟨Tokens input, 0, []⟩

/-- `NewParser(input).Parse()` with the given fuel. -/
def ParseGo (fuel : Nat) (input : String) : PRes (Program × Option String) :=
  ParseF fuel (NewParserState input)

/-- The Program component of a completed parse. -/
def parseProgGo (fuel : Nat) (input : String) : Option Program :=
  match ParseGo fuel input with
  | .ok (p, _) _ => some p
  | _ => none

/-- The error component of a completed parse (`some none` = success). -/
def parseErrGo (fuel : Nat) (input : String) : Option (Option String) :=
  match ParseGo fuel input with
  | .ok (_, e) _ => some e
  | _ => none

/-- Run just `parseExpression` on the token stream of an input. -/
def exprParseGo (fuel : Nat) (input : String) : Option Expression :=
  match parseExpressionF fuel (NewParserState input) with
  | .ok e _ => some e
  | _ => none

/-- True exactly when the computation hit the Go panic. -/
def PRes.isCrashed {α : Type} : PRes α → Bool
  | .crashed => true
  | _ => false

/-- True exactly when the computation ran out of fuel (the Go original is
still looping at that point). -/
def PRes.isFuelOut {α : Type} : PRes α → Bool
  | .fuelOut => true
  | _ => false

/-! ## Stepping lemmas for the top-level parse loop

Concrete multi-statement parses are evaluated one statement at a time:
these two lemmas peel one iteration of the loop of `Parse`, and
`ParseF_eq_ok` turns the collected statements into the final result. -/

theorem programLoopF_done (n : Nat) (acc : List Statement) (st : PState)
    (h : (st.currentToken.type == .EOF) = true) :
    programLoopF (n + 1) acc st = .ok acc st := by
  simp [programLoopF, Bind.bind, PM.bind, checkM, h, Pure.pure, PM.pure]

theorem programLoopF_cons (n : Nat) (acc : List Statement) (st : PState)
    (stmt : Statement) (st' : PState)
    (h : (st.currentToken.type == .EOF) = false)
    (hs : parseStatementF n st = .ok stmt st') :
    programLoopF (n + 1) acc st = programLoopF n (acc ++ [stmt]) st' := by
  simp [programLoopF, Bind.bind, PM.bind, checkM, h, hs]

theorem ParseF_eq_ok (fuel : Nat) (st : PState) (stmts : List Statement)
    (st' : PState) (h : programLoopF fuel [] st = .ok stmts st') :
    ParseF fuel st =
      .ok (⟨stmts⟩,
        if st'.errors.length > 0 then some (String.intercalate "\n" st'.errors)
        else none) st' := by
  by_cases hc : st'.errors.length > 0 <;> simp [ParseF, h, hc]

/-- Sequencing after a completed first step. -/
theorem bindOk {α β : Type} (m : PM α) (f : α → PM β) (st : PState) (a : α)
    (st' : PState) (h : m st = .ok a st') : (m >>= f) st = f a st' := by
  show PM.bind m f st = f a st'
  simp [PM.bind, h]

/-- Fuel exhaustion in the first step propagates through sequencing. -/
theorem bindOut {α β : Type} (m : PM α) (f : α → PM β) (st : PState)
    (h : m st = .fuelOut) : (m >>= f) st = .fuelOut := by
  show PM.bind m f st = .fuelOut
  simp [PM.bind, h]

/-! ## Claims

Each claim of the specification is settled by one theorem below; the
`c<n>` prefix names the claim.  Fuel arguments in concrete evaluations are
arbitrary values large enough for the parse to complete (the fuelled
functions are monotone in the sense that a completed parse is unaffected by
extra fuel; where a parse never completes, that is the point being
proved). -/

/-- **C1.**  Logical-and binds more tightly than logical-or:
`a or b and c` parses as an or-node whose right child is the and-node over
`b` and `c`, and `a and b or c` parses as an or-node whose left child is
the and-node — even though, in this implementation, both operators are
consumed by the duplicated bitwise precedence levels rather than by
`parseOr`/`parseAnd`, the relative binding is preserved. -/
theorem c1_logical_and_binds_tighter_than_or :
    exprParseGo 30 "a or b and c" =
      some (.binaryExpr .OR (.identExpr ⟨"a", 1⟩)
        (.binaryExpr .AND (.identExpr ⟨"b", 1⟩) (.identExpr ⟨"c", 1⟩) 1) 1) ∧
    exprParseGo 30 "a and b or c" =
      some (.binaryExpr .OR
        (.binaryExpr .AND (.identExpr ⟨"a", 1⟩) (.identExpr ⟨"b", 1⟩) 1)
        (.identExpr ⟨"c", 1⟩) 1) :=
  ⟨by rfl, by rfl⟩

/-- **C10.**  Exponentiation is right-associative: `a^b^c` parses with the
outer power node's right child itself the power node over `b` and `c`. -/
theorem c10_pow_right_assoc :
    exprParseGo 30 "a^b^c" =
      some (.binaryExpr .POW (.identExpr ⟨"a", 1⟩)
        (.binaryExpr .POW (.identExpr ⟨"b", 1⟩) (.identExpr ⟨"c", 1⟩) 1) 1) := by
  rfl

/-- **C3.**  Parsing `x = @` records a diagnostic and still returns a
Program with exactly one assignment statement whose single value is an
error-expression node; the parse completes normally. -/
theorem c3_recovery_on_illegal_token :
    parseProgGo 40 "x = @" =
      some ⟨[.assign [⟨"x", 1⟩] [.errorNode "unexpected token" 1] 1]⟩ ∧
    parseErrGo 40 "x = @" = some (some "unexpected token: ILLEGAL at line 1") :=
  ⟨by rfl, by rfl⟩

/-- **C5.**  The claim fails on the code: for the nested dotted chain
`a.b.c = 1` the unchecked narrowing `member.Object.(*Identifier)` is
reached with a member expression and the Go parser panics (`crashed`),
while the single-level member `a.b = 1`, the bare identifier `x = 1` and
the bracket index `a[1] = 2` do return assignments normally. -/
theorem c5_nested_member_assignment_crashes :
    (ParseGo 25 "a.b.c = 1").isCrashed = true ∧
    parseProgGo 30 "x = 1" =
      some ⟨[.assign [⟨"x", 1⟩] [.numberLit 0 1 true 1] 1]⟩ ∧
    parseProgGo 30 "a.b = 1" =
      some ⟨[.assign [⟨"a.b", 0⟩] [.numberLit 0 1 true 1] 1]⟩ ∧
    parseProgGo 40 "a[1] = 2" =
      some ⟨[.assign [⟨"a", 0⟩] [.numberLit 0 2 true 1] 1]⟩ :=
  ⟨by decide, by rfl, by rfl, by rfl⟩

/-- **C6.**  The claim fails on the code: with two consecutive line
comments, the second comment is re-scanned after its first dash was
consumed, the two-dash guard of `skipComment` fails, and the tokenizer
emits a `-` operator token and an identifier taken from the comment text. -/
theorem c6_consecutive_comments_emit_tokens :
    Tokens "-- a\n-- b\nx" =
      [⟨.MINUS, "-", 2, 2⟩, ⟨.IDENT, "b", 2, 4⟩, ⟨.IDENT, "x", 3, 1⟩,
       ⟨.EOF, "", 3, 2⟩] := by
  decide

/-- Token stream of `a, b = 1, 2`. -/
def toksC4 : List Token :=
  [⟨.IDENT, "a", 1, 1⟩, ⟨.COMMA, ",", 1, 2⟩, ⟨.IDENT, "b", 1, 4⟩,
   ⟨.ASSIGN, "=", 1, 6⟩, ⟨.INT, "1", 1, 8⟩, ⟨.COMMA, ",", 1, 9⟩,
   ⟨.INT, "2", 1, 11⟩, ⟨.EOF, "", 1, 12⟩]

/-- **C4 (counterexample).**  The claim fails on the code: the parser
resolves an assignment from a single already-parsed expression, so the
comma-separated target list of `a, b = 1, 2` is not consumed as one
assignment.  The parse yields three top-level statements — a degenerate
value-only statement for `a`, an error statement for the stray comma, and
a single-target assignment `b = 1, 2` — not one statement. -/
theorem c4_counterexample_multi_target :
    parseProgGo 50 "a, b = 1, 2" =
      some ⟨[.assign [] [.identExpr ⟨"a", 1⟩] 1,
             .assign [] [.errorNode "unexpected token" 1] 1,
             .assign [⟨"b", 1⟩] [.numberLit 0 1 true 1, .numberLit 0 2 true 1] 1]⟩ ∧
    (parseProgGo 50 "a, b = 1, 2").map (fun p => p.statements.length) = some 3 := by
  have htok : Tokens "a, b = 1, 2" = toksC4 := by decide
  have h1 : parseStatementF 49 ⟨toksC4, 0, []⟩ =
      .ok (.assign [] [.identExpr ⟨"a", 1⟩] 1) ⟨toksC4, 1, []⟩ := by rfl
  have h2 : parseStatementF 48 ⟨toksC4, 1, []⟩ =
      .ok (.assign [] [.errorNode "unexpected token" 1] 1)
        ⟨toksC4, 2, ["unexpected token: , at line 1"]⟩ := by rfl
  have h3 : parseStatementF 47 ⟨toksC4, 2, ["unexpected token: , at line 1"]⟩ =
      .ok (.assign [⟨"b", 1⟩] [.numberLit 0 1 true 1, .numberLit 0 2 true 1] 1)
        ⟨toksC4, 7, ["unexpected token: , at line 1"]⟩ := by rfl
  have hloop : programLoopF 50 [] ⟨toksC4, 0, []⟩ =
      .ok [.assign [] [.identExpr ⟨"a", 1⟩] 1,
           .assign [] [.errorNode "unexpected token" 1] 1,
           .assign [⟨"b", 1⟩] [.numberLit 0 1 true 1, .numberLit 0 2 true 1] 1]
        ⟨toksC4, 7, ["unexpected token: , at line 1"]⟩ := by
    have e1 := programLoopF_cons 49 [] ⟨toksC4, 0, []⟩ _ _ (by decide) h1
    have e2 := programLoopF_cons 48 [(.assign [] [.identExpr ⟨"a", 1⟩] 1 : Statement)]
      ⟨toksC4, 1, []⟩ _ _ (by decide) h2
    have e3 := programLoopF_cons 47
      [(.assign [] [.identExpr ⟨"a", 1⟩] 1 : Statement),
       (.assign [] [.errorNode "unexpected token" 1] 1 : Statement)]
      ⟨toksC4, 2, ["unexpected token: , at line 1"]⟩ _ _ (by decide) h3
    have e4 := programLoopF_done 46
      [(.assign [] [.identExpr ⟨"a", 1⟩] 1 : Statement),
       (.assign [] [.errorNode "unexpected token" 1] 1 : Statement),
       (.assign [⟨"b", 1⟩] [.numberLit 0 1 true 1, .numberLit 0 2 true 1] 1 : Statement)]
      ⟨toksC4, 7, ["unexpected token: , at line 1"]⟩ (by decide)
    exact e1.trans (e2.trans (e3.trans e4))
  have hp := ParseF_eq_ok 50 ⟨toksC4, 0, []⟩ _ _ hloop
  constructor
  · simp only [parseProgGo, ParseGo, NewParserState, htok, hp]
  · simp only [parseProgGo, ParseGo, NewParserState, htok, hp, Option.map]
    rfl

/-- **C4 (amended).**  A single assignable target followed by a
comma-separated value list does parse into exactly one assignment node
carrying the target and all the values: `b = 1, 2` yields one top-level
assignment with target `b` and both value expressions; the multi-target
form is simply not part of this parser's assignment grammar. -/
theorem c4_amended_single_target :
    parseProgGo 40 "b = 1, 2" =
      some ⟨[.assign [⟨"b", 1⟩]
        [.numberLit 0 1 true 1, .numberLit 0 2 true 1] 1]⟩ := by
  rfl

/-- Token stream of the two-line input with a boolean literal. -/
def toksC7a : List Token :=
  [⟨.IDENT, "x", 1, 1⟩, ⟨.ASSIGN, "=", 1, 3⟩, ⟨.TRUE, "true", 1, 5⟩,
   ⟨.IDENT, "y", 2, 1⟩, ⟨.ASSIGN, "=", 2, 3⟩, ⟨.INT, "1", 2, 5⟩, ⟨.EOF, "", 2, 6⟩]

/-- Token stream of the two-line input with a break statement. -/
def toksC7b : List Token :=
  [⟨.BREAK, "break", 1, 1⟩, ⟨.IDENT, "x", 2, 1⟩, ⟨.ASSIGN, "=", 2, 3⟩,
   ⟨.INT, "1", 2, 5⟩, ⟨.EOF, "", 2, 6⟩]

/-- **C7.**  The claim fails on the code: boolean/nil literal and break
nodes record the line of the token *after* their defining token (the
parser reads `currentToken` only after `advance`).  In `x = true\ny = 1`
the `true` token is on line 1 yet the boolean node carries line 2 (the
line of `y`); in `break\nx = 1` the `break` keyword is on line 1 yet the
break node carries line 2. -/
theorem c7_node_line_is_following_token_line :
    Tokens "x = true\ny = 1" = toksC7a ∧
    parseProgGo 40 "x = true\ny = 1" =
      some ⟨[.assign [⟨"x", 1⟩] [.booleanLit true 2] 2,
             .assign [⟨"y", 2⟩] [.numberLit 0 1 true 2] 2]⟩ ∧
    Tokens "break\nx = 1" = toksC7b ∧
    parseProgGo 30 "break\nx = 1" =
      some ⟨[.breakStmt 2,
             .assign [⟨"x", 2⟩] [.numberLit 0 1 true 2] 2]⟩ := by
  have htokA : Tokens "x = true\ny = 1" = toksC7a := by decide
  have htokB : Tokens "break\nx = 1" = toksC7b := by decide
  refine ⟨htokA, ?_, htokB, ?_⟩
  · have h1 : parseStatementF 39 ⟨toksC7a, 0, []⟩ =
        .ok (.assign [⟨"x", 1⟩] [.booleanLit true 2] 2) ⟨toksC7a, 3, []⟩ := by rfl
    have h2 : parseStatementF 38 ⟨toksC7a, 3, []⟩ =
        .ok (.assign [⟨"y", 2⟩] [.numberLit 0 1 true 2] 2) ⟨toksC7a, 6, []⟩ := by rfl
    have hloop : programLoopF 40 [] ⟨toksC7a, 0, []⟩ =
        .ok [.assign [⟨"x", 1⟩] [.booleanLit true 2] 2,
             .assign [⟨"y", 2⟩] [.numberLit 0 1 true 2] 2] ⟨toksC7a, 6, []⟩ := by
      have e1 := programLoopF_cons 39 [] ⟨toksC7a, 0, []⟩ _ _ (by decide) h1
      have e2 := programLoopF_cons 38
        [(.assign [⟨"x", 1⟩] [.booleanLit true 2] 2 : Statement)]
        ⟨toksC7a, 3, []⟩ _ _ (by decide) h2
      have e3 := programLoopF_done 37
        [(.assign [⟨"x", 1⟩] [.booleanLit true 2] 2 : Statement),
         (.assign [⟨"y", 2⟩] [.numberLit 0 1 true 2] 2 : Statement)]
        ⟨toksC7a, 6, []⟩ (by decide)
      exact e1.trans (e2.trans e3)
    have hp := ParseF_eq_ok 40 ⟨toksC7a, 0, []⟩ _ _ hloop
    simp only [parseProgGo, ParseGo, NewParserState, htokA, hp]
  · have h1 : parseStatementF 29 ⟨toksC7b, 0, []⟩ =
        .ok (.breakStmt 2) ⟨toksC7b, 1, []⟩ := by rfl
    have h2 : parseStatementF 28 ⟨toksC7b, 1, []⟩ =
        .ok (.assign [⟨"x", 2⟩] [.numberLit 0 1 true 2] 2) ⟨toksC7b, 4, []⟩ := by rfl
    have hloop : programLoopF 30 [] ⟨toksC7b, 0, []⟩ =
        .ok [.breakStmt 2,
             .assign [⟨"x", 2⟩] [.numberLit 0 1 true 2] 2] ⟨toksC7b, 4, []⟩ := by
      have e1 := programLoopF_cons 29 [] ⟨toksC7b, 0, []⟩ _ _ (by decide) h1
      have e2 := programLoopF_cons 28 [(.breakStmt 2 : Statement)]
        ⟨toksC7b, 1, []⟩ _ _ (by decide) h2
      have e3 := programLoopF_done 27
        [(.breakStmt 2 : Statement),
         (.assign [⟨"x", 2⟩] [.numberLit 0 1 true 2] 2 : Statement)]
        ⟨toksC7b, 4, []⟩ (by decide)
      exact e1.trans (e2.trans e3)
    have hp := ParseF_eq_ok 30 ⟨toksC7b, 0, []⟩ _ _ hloop
    simp only [parseProgGo, ParseGo, NewParserState, htokB, hp]

/-- **C8.**  Whenever `Parse` completes, it reports failure — the
newline-joined concatenation of the recorded messages — exactly when the
internal diagnostic list is non-empty, and reports success (`none`) exactly
when that list is empty; in both cases the result also carries the Program
(the `.ok` pair). -/
theorem c8_failure_iff_diagnostics (fuel : Nat) (st : PState) (prog : Program)
    (res : Option String) (st' : PState)
    (h : ParseF fuel st = .ok (prog, res) st') :
    (res = if st'.errors.length > 0 then some (String.intercalate "\n" st'.errors)
      else none) ∧
    (res.isSome ↔ st'.errors ≠ []) := by
  cases h2 : programLoopF fuel [] st with
  | ok stmts st2 =>
    rw [ParseF_eq_ok fuel st stmts st2 h2] at h
    injection h with hpair hst
    subst hst
    have hres : res =
        if st2.errors.length > 0 then some (String.intercalate "\n" st2.errors)
        else none := (congrArg Prod.snd hpair).symm
    refine ⟨hres, ?_⟩
    rcases he : st2.errors with _ | ⟨e, es⟩
    · simp [hres, he]
    · simp [hres, he]
  | fuelOut => simp [ParseF, h2] at h
  | crashed => simp [ParseF, h2] at h

/-- Witness for C8 at the concrete input `x = 1` with fuel 30: the parse
completes with no diagnostics and a `none` (success) report. -/
theorem c8_witness :
    ((none : Option String) =
      if (⟨Tokens "x = 1", 3, []⟩ : PState).errors.length > 0
      then some (String.intercalate "\n" (⟨Tokens "x = 1", 3, []⟩ : PState).errors)
      else none) ∧
    ((none : Option String).isSome ↔ (⟨Tokens "x = 1", 3, []⟩ : PState).errors ≠ []) :=
  c8_failure_iff_diagnostics 30 (NewParserState "x = 1")
    ⟨[.assign [⟨"x", 1⟩] [.numberLit 0 1 true 1] 1]⟩ none
    ⟨Tokens "x = 1", 3, []⟩ (by rfl)

/-! ### C9: lexical errors are illegal tokens, not crashes -/

/-- A non-whitespace first character makes `skipWhitespace` a no-op. -/
theorem skipWsL_noop (ch : Char) (rest : List Char) (l c : Nat)
    (h1 : ch ≠ ' ') (h2 : ch ≠ '\t') (h3 : ch ≠ '\r') (h4 : ch ≠ '\n') :
    skipWsL (ch :: rest) l c = (ch :: rest, l, c) := by
  rw [skipWsL.eq_def]
  simp [h1, h2, h3, h4]

/-- A first character other than a dash makes `skipComment` a no-op. -/
theorem skipCommentL_noop (ch : Char) (rest : List Char) (l c : Nat)
    (h : ch ≠ '-') :
    skipCommentL (ch :: rest) l c = (ch :: rest, l, c) := by
  cases rest <;> simp [skipCommentL, h]

/-- If the delimiter never appears in the remaining input, `readString`
reaches end of input and reports an ILLEGAL token (an actual NUL rune also
reads as end of input, with the same outcome). -/
theorem readStringT_unterminated (q : Char) :
    ∀ (n : Nat) (rest : List Char), rest.length ≤ n →
      ∀ (l c : Nat) (acc : List Char), q ∉ rest →
        (readStringT q rest l c acc).1 = .ILLEGAL := by
  intro n
  induction n with
  | zero =>
    intro rest hlen l c acc _
    have h : rest = [] := List.eq_nil_of_length_eq_zero (Nat.le_zero.mp hlen)
    subst h
    rfl
  | succ k IH =>
    intro rest hlen l c acc hq
    match rest with
    | [] => rfl
    | ch :: rest' =>
      have hne : ch ≠ q := fun h => hq (h ▸ List.mem_cons_self ch rest')
      have hq' : q ∉ rest' := fun h => hq (List.mem_cons.mpr (Or.inr h))
      have hlen' : rest'.length ≤ k := by
        simpa [Nat.succ_le_succ_iff] using hlen
      by_cases h0 : ch = nulChar
      · subst h0
        rw [readStringT.eq_def]
        simp
      · by_cases hbs : ch = '\\'
        · subst hbs
          match rest' with
          | [] =>
            rw [readStringT.eq_def]
            simp [h0, hne]
          | e :: rest2 =>
            have hq2 : q ∉ rest2 := fun h => hq' (List.mem_cons.mpr (Or.inr h))
            have hlen2 : rest2.length ≤ k := by
              have := hlen'
              simp at this
              omega
            rw [readStringT.eq_def]
            simp [h0, hne]
            exact IH rest2 hlen2 _ _ _ hq2
        · rw [readStringT.eq_def]
          simp [h0, hne, hbs]
          exact IH rest' hlen' _ _ _ hq'

/-- `NextToken` on a quote character hands the token kind straight to
`readString` (the delimiter is the quote itself, consumed first). -/
theorem nextToken_quote (q : Char) (rest : List Char) (l c : Nat)
    (hquote : q = Char.ofNat 34 ∨ q = Char.ofNat 39) :
    (NextTokenGo ⟨q :: rest, l, c⟩).1.type =
      (readStringT q rest l (c + 1) []).1 := by
  rcases hquote with h | h
  · subst h
    rw [NextTokenGo, NextTokenF.eq_def]
    have hws := skipWsL_noop (Char.ofNat 34) rest l c
      (by decide) (by decide) (by decide) (by decide)
    have hsc := skipCommentL_noop (Char.ofNat 34) rest l c (by decide)
    simp only [hws, hsc]
    rcases hres : readStringT (Char.ofNat 34) rest l (c + 1) [] with ⟨ty, val, xs, l2, c2⟩
    simp [hres, show (Char.ofNat 34) ≠ nulChar by decide]
  · subst h
    rw [NextTokenGo, NextTokenF.eq_def]
    have hws := skipWsL_noop (Char.ofNat 39) rest l c
      (by decide) (by decide) (by decide) (by decide)
    have hsc := skipCommentL_noop (Char.ofNat 39) rest l c (by decide)
    simp only [hws, hsc]
    rcases hres : readStringT (Char.ofNat 39) rest l (c + 1) [] with ⟨ty, val, xs, l2, c2⟩
    simp [hres, show (Char.ofNat 39) ≠ nulChar by decide]

/-- An isolated `~` (not followed by `=`) yields the illegal token `~`. -/
theorem nextToken_tilde (rest : List Char) (l c : Nat)
    (h : rest.head? ≠ some '=') :
    (NextTokenGo ⟨'~' :: rest, l, c⟩).1 = ⟨.ILLEGAL, "~", l, c⟩ := by
  match rest with
  | [] => rfl
  | r :: rs =>
    have hr : r ≠ '=' := by simpa using h
    rw [NextTokenGo, NextTokenF.eq_def]
    have hws := skipWsL_noop '~' (r :: rs) l c (by decide) (by decide) (by decide) (by decide)
    have hsc := skipCommentL_noop '~' (r :: rs) l c (by decide)
    simp only [hws, hsc]
    simp [hr, show ('~' : Char) ≠ nulChar by decide]

/-- A character matched by no lexer rule is returned as an illegal token
containing exactly that character. -/
theorem nextToken_unmatched (c0 : Char) (rest : List Char) (l c : Nat)
    (hsp : c0 ≠ ' ') (htab : c0 ≠ '\t') (hcr : c0 ≠ '\r') (hnl : c0 ≠ '\n')
    (hnul : c0 ≠ nulChar)
    (heq : c0 ≠ '=') (hplus : c0 ≠ '+') (hdash : c0 ≠ '-') (hstar : c0 ≠ '*')
    (hslash : c0 ≠ '/') (hmod : c0 ≠ '%') (hpow : c0 ≠ '^') (hhash : c0 ≠ '#')
    (hlp : c0 ≠ '(') (hrp : c0 ≠ ')') (hlb : c0 ≠ Char.ofNat 123)
    (hrb : c0 ≠ Char.ofNat 125) (hlbr : c0 ≠ '[') (hrbr : c0 ≠ ']')
    (hcomma : c0 ≠ ',') (hdot : c0 ≠ '.') (hcolon : c0 ≠ ':') (hsemi : c0 ≠ ';')
    (hdq : c0 ≠ Char.ofNat 34) (hsq : c0 ≠ Char.ofNat 39) (htil : c0 ≠ '~')
    (hlt : c0 ≠ '<') (hgt : c0 ≠ '>')
    (hd : isDigitGo c0 = false) (hl : isLetterGo c0 = false) (hu : c0 ≠ '_') :
    (NextTokenGo ⟨c0 :: rest, l, c⟩).1 = ⟨.ILLEGAL, String.mk [c0], l, c⟩ := by
  rw [NextTokenGo, NextTokenF.eq_def]
  have hws := skipWsL_noop c0 rest l c hsp htab hcr hnl
  have hsc := skipCommentL_noop c0 rest l c hdash
  simp only [hws, hsc]
  simp [hnul, heq, hplus, hdash, hstar, hslash, hmod, hpow, hhash,
    hlp, hrp, hlb, hrb, hlbr, hrbr, hcomma, hdot, hcolon, hsemi, hdq, hsq,
    htil, hlt, hgt, hd, hl, hu]

/-- **C9.**  Lexical errors are represented as illegal tokens rather than
crashes: an unterminated string (no closing quote before end of input), an
isolated `~` not followed by `=`, and a character matched by no rule (here
`@`, with any remaining input) each make `NextToken` return a token of the
illegal kind — carrying the offending character for the latter two — and
the lexer continues from a well-defined state rather than aborting. -/
theorem c9_lexical_errors_are_illegal_tokens :
    (∀ (q : Char) (rest : List Char) (l c : Nat),
      (q = Char.ofNat 34 ∨ q = Char.ofNat 39) → q ∉ rest →
        (NextTokenGo ⟨q :: rest, l, c⟩).1.type = .ILLEGAL) ∧
    (∀ (rest : List Char) (l c : Nat), rest.head? ≠ some '=' →
        (NextTokenGo ⟨'~' :: rest, l, c⟩).1 = ⟨.ILLEGAL, "~", l, c⟩) ∧
    (∀ (rest : List Char) (l c : Nat),
        (NextTokenGo ⟨'@' :: rest, l, c⟩).1 = ⟨.ILLEGAL, String.mk ['@'], l, c⟩) := by
  refine ⟨?_, nextToken_tilde, ?_⟩
  · intro q rest l c hquote hmem
    rw [nextToken_quote q rest l c hquote]
    exact readStringT_unterminated q rest.length rest (Nat.le_refl _) l (c + 1) [] hmem
  · intro rest l c
    exact nextToken_unmatched '@' rest l c
      (by decide) (by decide) (by decide) (by decide) (by decide) (by decide)
      (by decide) (by decide) (by decide) (by decide) (by decide) (by decide)
      (by decide) (by decide) (by decide) (by decide) (by decide) (by decide)
      (by decide) (by decide) (by decide) (by decide) (by decide) (by decide)
      (by decide) (by decide) (by decide) (by decide) (by decide) (by decide)
      (by decide)

/-- Witness for C9 at concrete inputs: the unterminated string `"abc`, the
isolated `~x`, and the unmatched character `@`. -/
theorem c9_witness :
    (NextTokenGo ⟨Char.ofNat 34 :: ['a', 'b', 'c'], 1, 1⟩).1.type = .ILLEGAL ∧
    (NextTokenGo ⟨'~' :: ['x'], 1, 1⟩).1 = ⟨.ILLEGAL, "~", 1, 1⟩ ∧
    (NextTokenGo ⟨'@' :: [], 1, 1⟩).1 = ⟨.ILLEGAL, String.mk ['@'], 1, 1⟩ :=
  ⟨c9_lexical_errors_are_illegal_tokens.1 (Char.ofNat 34) ['a', 'b', 'c'] 1 1
      (Or.inl rfl) (by decide),
   c9_lexical_errors_are_illegal_tokens.2.1 ['x'] 1 1 (by decide),
   c9_lexical_errors_are_illegal_tokens.2.2 [] 1 1⟩

theorem PMbindOut {α β : Type} (g : PM α) (f : α → PM β) (st : PState)
    (h : g st = .fuelOut) : PM.bind g f st = .fuelOut := by
  simp [PM.bind, h]

def toksTbl : List Token :=
  [⟨.IDENT, "x", 1, 1⟩, ⟨.ASSIGN, "=", 1, 3⟩, ⟨.LBRACE, "\x7b", 1, 5⟩, ⟨.EOF, "", 1, 6⟩]

def tblErr1 : String := "unexpected token: " ++ TokenType.str .EOF ++ " at line " ++ toString 1

theorem tblFieldS3 (m : Nat) (e : List String) :
    parseTableFieldF (m + 15) ⟨toksTbl, 3, e⟩ =
      .ok (TableField.mk none (.errorNode "unexpected token" 1) 1)
        ⟨toksTbl, 4, e ++ [tblErr1]⟩ := by
  rfl

theorem tblFieldS4 (m : Nat) (e : List String) :
    parseTableFieldF (m + 15) ⟨toksTbl, 4, e⟩ =
      .ok (TableField.mk none (.errorNode "unexpected token" 1) 1)
        ⟨toksTbl, 4, e ++ [tblErr1]⟩ := by
  rfl

theorem tblFieldSmall3 (k : Nat) (hk : k < 15) (e : List String) :
    parseTableFieldF k ⟨toksTbl, 3, e⟩ = .fuelOut := by
  interval_cases k <;> rfl

theorem tblFieldSmall4 (k : Nat) (hk : k < 15) (e : List String) :
    parseTableFieldF k ⟨toksTbl, 4, e⟩ = .fuelOut := by
  interval_cases k <;> rfl

theorem tableFieldsLoopF_out (n : Nat) (acc : List TableField) (st : PState)
    (hf : parseTableFieldF n st = .fuelOut) :
    tableFieldsLoopF (n + 1) acc st = .fuelOut := by
  simp [tableFieldsLoopF, Bind.bind, PM.bind, hf]

theorem tableFieldsLoopF_step (n : Nat) (acc : List TableField) (st : PState)
    (f : TableField) (st' : PState)
    (hf : parseTableFieldF n st = .ok f st')
    (hrb : (st'.currentToken.type == TokenType.RBRACE) = false)
    (hcm : (st'.currentToken.type == TokenType.COMMA) = false) :
    tableFieldsLoopF (n + 1) acc st =
      tableFieldsLoopF n (acc ++ [f])
        { st' with errors := st'.errors ++
            ["expected " ++ TokenType.str .COMMA ++ " but got " ++
              TokenType.str st'.currentToken.type ++ " at line " ++
              toString st'.currentToken.line] } := by
  simp [tableFieldsLoopF, Bind.bind, PM.bind, hf, checkM, hrb, expectM, hcm]

theorem tblLoopS4 : ∀ (n : Nat) (acc : List TableField) (e : List String),
    tableFieldsLoopF n acc ⟨toksTbl, 4, e⟩ = .fuelOut := by
  intro n
  induction n using Nat.strong_induction_on with
  | _ n IH =>
    match n with
    | 0 => intro acc e; rfl
    | k + 1 =>
      intro acc e
      rcases Nat.lt_or_ge k 15 with hk | hk
      · exact tableFieldsLoopF_out k acc _ (tblFieldSmall4 k hk e)
      · obtain ⟨m, rfl⟩ : ∃ m, k = m + 15 := ⟨k - 15, by omega⟩
        rw [tableFieldsLoopF_step (m + 15) acc _ _ _ (tblFieldS4 m e) (by rfl) (by rfl)]
        exact IH (m + 15) (by omega) _ _

theorem tblLoopS3 (n : Nat) (acc : List TableField) (e : List String) :
    tableFieldsLoopF n acc ⟨toksTbl, 3, e⟩ = .fuelOut := by
  match n with
  | 0 => rfl
  | k + 1 =>
    rcases Nat.lt_or_ge k 15 with hk | hk
    · exact tableFieldsLoopF_out k acc _ (tblFieldSmall3 k hk e)
    · obtain ⟨m, rfl⟩ : ∃ m, k = m + 15 := ⟨k - 15, by omega⟩
      rw [tableFieldsLoopF_step (m + 15) acc _ _ _ (tblFieldS3 m e) (by rfl) (by rfl)]
      exact tblLoopS4 (m + 15) _ _

theorem tblLitDiv (m : Nat) : parseTableLiteralF (m + 3) ⟨toksTbl, 2, []⟩ = .fuelOut := by
  show PM.bind (tableFieldsLoopF (m + 2) [])
    (fun fields => PM.bind (expectM .RBRACE)
      (fun x => PM.pure (Expression.tableLit fields 1))) ⟨toksTbl, 3, []⟩ = .fuelOut
  exact PMbindOut _ _ _ (tblLoopS3 (m + 2) [] [])

theorem primaryDiv (m : Nat) : parsePrimaryF (m + 4) ⟨toksTbl, 2, []⟩ = .fuelOut := by
  have h : parsePrimaryF (m + 4) ⟨toksTbl, 2, []⟩ =
      parseTableLiteralF (m + 3) ⟨toksTbl, 2, []⟩ := by rfl
  rw [h]
  exact tblLitDiv m

theorem postfixDiv (m : Nat) : parsePostfixExprF (m + 5) ⟨toksTbl, 2, []⟩ = .fuelOut := by
  show PM.bind (parsePrimaryF (m + 4)) (fun e => postfixLoopF (m + 4) e)
    ⟨toksTbl, 2, []⟩ = .fuelOut
  exact PMbindOut _ _ _ (primaryDiv m)

theorem powDiv (m : Nat) : parsePowF (m + 6) ⟨toksTbl, 2, []⟩ = .fuelOut := by
  show PM.bind (parsePostfixExprF (m + 5)) (fun left => powLoopF (m + 5) left)
    ⟨toksTbl, 2, []⟩ = .fuelOut
  exact PMbindOut _ _ _ (postfixDiv m)

theorem unaryDiv (m : Nat) : parseUnaryF (m + 7) ⟨toksTbl, 2, []⟩ = .fuelOut := by
  have h : parseUnaryF (m + 7) ⟨toksTbl, 2, []⟩ =
      parsePowF (m + 6) ⟨toksTbl, 2, []⟩ := by rfl
  rw [h]
  exact powDiv m

theorem mulDiv (m : Nat) : parseMulDivModF (m + 8) ⟨toksTbl, 2, []⟩ = .fuelOut := by
  show PM.bind (parseUnaryF (m + 7)) (fun left => mulDivModLoopF (m + 7) left)
    ⟨toksTbl, 2, []⟩ = .fuelOut
  exact PMbindOut _ _ _ (unaryDiv m)

theorem addDiv (m : Nat) : parseAddSubF (m + 9) ⟨toksTbl, 2, []⟩ = .fuelOut := by
  show PM.bind (parseMulDivModF (m + 8)) (fun left => addSubLoopF (m + 8) left)
    ⟨toksTbl, 2, []⟩ = .fuelOut
  exact PMbindOut _ _ _ (mulDiv m)

theorem bitAndDiv (m : Nat) : parseBitwiseAndF (m + 10) ⟨toksTbl, 2, []⟩ = .fuelOut := by
  show PM.bind (parseAddSubF (m + 9)) (fun left => bitwiseAndLoopF (m + 9) left)
    ⟨toksTbl, 2, []⟩ = .fuelOut
  exact PMbindOut _ _ _ (addDiv m)

theorem bitXorDiv (m : Nat) : parseBitwiseXorF (m + 11) ⟨toksTbl, 2, []⟩ = .fuelOut := by
  show PM.bind (parseBitwiseAndF (m + 10)) (fun left => bitwiseXorLoopF (m + 10) left)
    ⟨toksTbl, 2, []⟩ = .fuelOut
  exact PMbindOut _ _ _ (bitAndDiv m)

theorem bitOrDiv (m : Nat) : parseBitwiseOrF (m + 12) ⟨toksTbl, 2, []⟩ = .fuelOut := by
  show PM.bind (parseBitwiseXorF (m + 11)) (fun left => bitwiseOrLoopF (m + 11) left)
    ⟨toksTbl, 2, []⟩ = .fuelOut
  exact PMbindOut _ _ _ (bitXorDiv m)

theorem concatDiv (m : Nat) : parseConcatF (m + 13) ⟨toksTbl, 2, []⟩ = .fuelOut := by
  show PM.bind (parseBitwiseOrF (m + 12))
    (fun left => PM.bind (checkM .CONCAT)
      (fun c => if c then
          PM.bind advanceM (fun op1 =>
            PM.bind (parseBitwiseOrF (m + 12)) (fun r1 =>
              PM.bind (concatLoopF (m + 12) [op1] [r1]) (fun collected =>
                PM.pure (concatFold left collected.1 collected.2))))
        else PM.pure left)) ⟨toksTbl, 2, []⟩ = .fuelOut
  exact PMbindOut _ _ _ (bitOrDiv m)

theorem comparisonDiv (m : Nat) : parseComparisonF (m + 14) ⟨toksTbl, 2, []⟩ = .fuelOut := by
  show PM.bind (parseConcatF (m + 13)) (fun left => comparisonLoopF (m + 13) left)
    ⟨toksTbl, 2, []⟩ = .fuelOut
  exact PMbindOut _ _ _ (concatDiv m)

theorem andDiv (m : Nat) : parseAndF (m + 15) ⟨toksTbl, 2, []⟩ = .fuelOut := by
  show PM.bind (parseComparisonF (m + 14)) (fun left => andLoopF (m + 14) left)
    ⟨toksTbl, 2, []⟩ = .fuelOut
  exact PMbindOut _ _ _ (comparisonDiv m)

theorem orDiv (m : Nat) : parseOrF (m + 16) ⟨toksTbl, 2, []⟩ = .fuelOut := by
  show PM.bind (parseAndF (m + 15)) (fun left => orLoopF (m + 15) left)
    ⟨toksTbl, 2, []⟩ = .fuelOut
  exact PMbindOut _ _ _ (andDiv m)

theorem exprDiv (m : Nat) : parseExpressionF (m + 17) ⟨toksTbl, 2, []⟩ = .fuelOut := by
  have h : parseExpressionF (m + 17) ⟨toksTbl, 2, []⟩ =
      parseOrF (m + 16) ⟨toksTbl, 2, []⟩ := by rfl
  rw [h]
  exact orDiv m

theorem exprListDiv (m : Nat) :
    parseExpressionListF (m + 18) ⟨toksTbl, 2, []⟩ = .fuelOut := by
  show PM.bind (parseExpressionF (m + 17)) (fun e => exprListLoopF (m + 17) [e])
    ⟨toksTbl, 2, []⟩ = .fuelOut
  exact PMbindOut _ _ _ (exprDiv m)

theorem assignDiv (m : Nat) :
    parseAssignmentOrExpressionF (m + 19) ⟨toksTbl, 0, []⟩ = .fuelOut := by
  show PM.bind (parseExpressionListF (m + 18))
      (fun values => PM.bind currentTokenM (fun cur =>
        PM.bind (PM.pure (some (Statement.assign [⟨"x", 1⟩] values cur.line)))
          (fun y => match y with
            | some s => PM.pure s
            | none => PM.bind currentTokenM (fun cur2 =>
                PM.pure (Statement.assign [] [Expression.identExpr ⟨"x", 1⟩] cur2.line)))))
      ⟨toksTbl, 2, []⟩ = PRes.fuelOut
  exact PMbindOut _ _ _ (exprListDiv m)

theorem stmtDiv (m : Nat) : parseStatementF (m + 20) ⟨toksTbl, 0, []⟩ = .fuelOut := by
  have h : parseStatementF (m + 20) ⟨toksTbl, 0, []⟩ =
      parseAssignmentOrExpressionF (m + 19) ⟨toksTbl, 0, []⟩ := by rfl
  rw [h]
  exact assignDiv m

theorem progLoopDiv (m : Nat) : programLoopF (m + 21) [] ⟨toksTbl, 0, []⟩ = .fuelOut := by
  show PM.bind (parseStatementF (m + 20))
    (fun s => programLoopF (m + 20) ([] ++ [s])) ⟨toksTbl, 0, []⟩ = .fuelOut
  exact PMbindOut _ _ _ (stmtDiv m)

theorem progLoopSmall (k : Nat) (hk : k < 21) :
    programLoopF k [] ⟨toksTbl, 0, []⟩ = .fuelOut := by
  interval_cases k <;> rfl

/-- **C2.** Refuted: `Parse` does NOT terminate on every input. On the
malformed program consisting of an identifier, `=`, and an unterminated
table constructor, the table-field loop in `parseTableLiteral` never
tests for EOF; at EOF neither the error-path `advance` (which refuses to
move past the last token) nor `expect(COMMA)` (which does not advance on
mismatch) makes progress, so the loop re-reads the same token forever.
In the fuel-indexed embedding, no amount of fuel suffices: `ParseGo`
reports fuel exhaustion at every fuel. -/
theorem c2_parse_diverges_on_unterminated_table :
    ∀ (fuel : Nat), ParseGo fuel "x = \x7b" = .fuelOut := by
  intro fuel
  have htok : Tokens "x = \x7b" = toksTbl := by decide
  rcases Nat.lt_or_ge fuel 21 with hf | hf
  · have hk := progLoopSmall fuel hf
    simp [ParseGo, NewParserState, htok, ParseF, hk]
  · obtain ⟨m, rfl⟩ : ∃ m, fuel = m + 21 := ⟨fuel - 21, by omega⟩
    have h := progLoopDiv m
    simp [ParseGo, NewParserState, htok, ParseF, h]

end LuaR
